import Mathlib

set_option maxRecDepth 100000

/-!
Shallow embedding of the repository clalancette/monthly_github_activity:
the collector `get_monthly_contributions.py` and the renderer
`graph_monthly_contributions.py`.

Modelling conventions:
* Python dicts are insertion-ordered association lists; assignment is
  `dictSet`, read is `dictGet?`, `d[k] += v` is `dictAdd` whose `none`
  result models the `KeyError` raised on a missing key.
* Python sets are insertion-ordered duplicate-free lists (`setAdd`, `pySet`).
* GraphQL `null` is `Option.none`; the cursor sentinel string `'null'` used
  by the source is likewise `Option.none`, a quoted cursor is `some s`.
* GitHub timestamps are modelled by the only fields the program ever reads
  after `parse_github_time` / `strptime`, namely year and month (`GhTime`).
* The unbounded `while` loops are given explicit fuel; a `none` result means
  the loop did not finish within the given fuel.
* A raised exception (`KeyError`, `ValueError` from `strptime`) is `none`.
-/

/-- Python dict assignment `d[k] = v`: overwrite the value if the key is
present (keeping its position), otherwise append a new binding. -/
def dictSet {κ α : Type} [DecidableEq κ] (d : List (κ × α)) (k : κ) (v : α) :
    List (κ × α) :=
  if d.any (fun p => p.1 == k) then
    d.map (fun p => if p.1 = k then (p.1, v) else p)
  else
    d ++ [(k, v)]

/-- Python dict read `d[k]`: the value of the first binding of `k`. -/
def dictGet? {κ α : Type} [DecidableEq κ] (d : List (κ × α)) (k : κ) : Option α :=
  (d.find? (fun p => p.1 == k)).map (fun p => p.2)

/-- Python in-place update of the object stored under an existing key
(`d[k].method(...)`). -/
def dictModify {κ α : Type} [DecidableEq κ] (d : List (κ × α)) (k : κ) (f : α → α) :
    List (κ × α) :=
  d.map (fun p => if p.1 = k then (p.1, f p.2) else p)

/-- Python `d[k] += v` on an integer-valued dict: `none` models the
`KeyError` raised when the key is absent. -/
def dictAdd {κ : Type} [DecidableEq κ] (d : List (κ × Int)) (k : κ) (v : Int) :
    Option (List (κ × Int)) :=
  if d.any (fun p => p.1 == k) then
    some (d.map (fun p => if p.1 = k then (p.1, p.2 + v) else p))
  else
    none

/-- Python `s.add(x)` on a set modelled as a duplicate-free list. -/
def setAdd (l : List String) (x : String) : List String :=
  if x ∈ l then l else l ++ [x]

/-- Python `set(l)`: deduplicate keeping first occurrences. -/
def pySet (l : List String) : List String :=
  l.foldl (fun acc x => if x ∈ acc then acc else acc ++ [x]) []

/-- Zero-padded two-digit rendering, Python `'%02d' % n` for the values the
program feeds it. -/
def pad2 (n : Nat) : String :=
  if n < 10 then "0" ++ toString n else toString n

/-- Month bucket key, Python `'%d-%02d' % (year, month)`. -/
def month_key (year month : Nat) : String :=
  toString year ++ "-" ++ pad2 month

/-- Run date rendering, Python `today.strftime('%Y-%m-%d')`. -/
def date_key (year month day : Nat) : String :=
  toString year ++ "-" ++ pad2 month ++ "-" ++ pad2 day

/-- GitHub timestamp after `parse_github_time`, kept as the two fields the
program consumes. -/
structure GhTime where
  year : Nat
  month : Nat
deriving DecidableEq, Repr

/-- Python `datetime.date`. -/
structure PyDate where
  year : Nat
  month : Nat
  day : Nat
deriving DecidableEq, Repr

/-- Python `date` comparison `a < b` (lexicographic). -/
def dateLt (a b : PyDate) : Bool :=
  decide (a.year < b.year) ||
    (decide (a.year = b.year) &&
      (decide (a.month < b.month) ||
        (decide (a.month = b.month) && decide (a.day < b.day))))

/-- Split of a character list on a separator: the semantics of Python
`str.split(sep)` for a one-character separator. -/
def splitOnChar (sep : Char) : List Char → List (List Char)
  | [] => [[]]
  | c :: rest =>
    match splitOnChar sep rest with
    | [] => [[]]
    | seg :: segs => if c = sep then [] :: seg :: segs else (c :: seg) :: segs

/-- Decimal digit characters to the number they denote. -/
def digitsToNat (l : List Char) : Nat :=
  l.foldl (fun n c => n * 10 + (c.toNat - Char.toNat (Char.ofNat 48))) 0

/-- Python `datetime.datetime.strptime(s, '%Y-%m')`: exactly four year
digits, a dash, and a one- or two-digit month between 1 and 12; `none`
models the raised `ValueError`. -/
def parseMonth (s : String) : Option (Nat × Nat) :=
  match splitOnChar (Char.ofNat 45) s.toList with
  | [ys, ms] =>
    if ys.length = 4 ∧ ys.all Char.isDigit ∧
        (ms.length = 1 ∨ ms.length = 2) ∧ ms.all Char.isDigit then
      if 1 ≤ digitsToNat ms ∧ digitsToNat ms ≤ 12 then
        some (digitsToNat ys, digitsToNat ms)
      else none
    else none
  | _ => none

/-- Month `(y, m)` lies in the window pre-populated by
`AuthorCounts.__init__` for run date `today`: 2013-01 through the month of
`today`. -/
def inWindow (today : PyDate) (y m : Nat) : Bool :=
  decide (2013 ≤ y) && decide (1 ≤ m) && decide (m ≤ 12) &&
    (decide (y < today.year) || (decide (y = today.year) && decide (m ≤ today.month)))

/-- Months enumerated by the `AuthorCounts.__init__` double loop:
`for year in range(2013, today.year): for month in range(1, 13)` followed by
`for month in range(1, today.month + 1)` with `today.year`. -/
def monthsSeq (today : PyDate) : List (Nat × Nat) :=
  ((List.range' 2013 (today.year - 2013)).flatMap
      (fun y => (List.range' 1 12).map (fun m => (y, m))))
    ++ (List.range' 1 today.month).map (fun m => (today.year, m))

/-- One freshly initialised month-keyed counter: every month of the window
set to 0, in enumeration order. -/
def counterInit (today : PyDate) : List (String × Int) :=
  (monthsSeq today).foldl (fun d ym => dictSet d (month_key ym.1 ym.2) 0) []

/-- The `AuthorCounts` class: five independent month-keyed counters. -/
structure AuthorCounts where
  prs_by_month : List (String × Int)
  reviews_by_month : List (String × Int)
  pr_comments_by_month : List (String × Int)
  issues_by_month : List (String × Int)
  issue_comments_by_month : List (String × Int)
deriving DecidableEq, Repr

/-- `AuthorCounts.__init__(today)`. -/
def AuthorCounts.init (today : PyDate) : AuthorCounts :=
  ⟨counterInit today, counterInit today, counterInit today,
   counterInit today, counterInit today⟩

/-- `AuthorCounts.increment_prs(date, activity)`; `none` is the `KeyError`
on a month outside the pre-populated window. -/
def AuthorCounts.increment_prs (c : AuthorCounts) (year month : Nat)
    (activity : Int) : Option AuthorCounts :=
  (dictAdd c.prs_by_month (month_key year month) activity).map
    (fun d => { c with prs_by_month := d })

/-- `AuthorCounts.increment_reviews(date, activity)`. -/
def AuthorCounts.increment_reviews (c : AuthorCounts) (year month : Nat)
    (activity : Int) : Option AuthorCounts :=
  (dictAdd c.reviews_by_month (month_key year month) activity).map
    (fun d => { c with reviews_by_month := d })

/-- `AuthorCounts.increment_pr_comments(date, activity)`. -/
def AuthorCounts.increment_pr_comments (c : AuthorCounts) (year month : Nat)
    (activity : Int) : Option AuthorCounts :=
  (dictAdd c.pr_comments_by_month (month_key year month) activity).map
    (fun d => { c with pr_comments_by_month := d })

/-- `AuthorCounts.increment_issues(date, activity)`. -/
def AuthorCounts.increment_issues (c : AuthorCounts) (year month : Nat)
    (activity : Int) : Option AuthorCounts :=
  (dictAdd c.issues_by_month (month_key year month) activity).map
    (fun d => { c with issues_by_month := d })

/-- `AuthorCounts.increment_issue_comments(date, activity)`. -/
def AuthorCounts.increment_issue_comments (c : AuthorCounts) (year month : Nat)
    (activity : Int) : Option AuthorCounts :=
  (dictAdd c.issue_comments_by_month (month_key year month) activity).map
    (fun d => { c with issue_comments_by_month := d })

/-- GraphQL `pageInfo`. -/
structure PageInfo where
  hasNextPage : Bool
  endCursor : String
deriving DecidableEq, Repr

/-- One node of the nested `reviews` connection. -/
structure ReviewNode where
  author : Option String
  submittedAt : Option GhTime
deriving DecidableEq, Repr

/-- One node of a nested `comments` connection. -/
structure CommentNode where
  author : Option String
  createdAt : GhTime
deriving DecidableEq, Repr

/-- A paginated GraphQL connection. -/
structure Connection (α : Type) where
  nodes : List α
  pageInfo : PageInfo
deriving DecidableEq, Repr

/-- One `PullRequest` node of the outer search page. -/
structure PRNode (Id : Type) where
  id : Id
  author : Option String
  createdAt : GhTime
  reviews : Connection ReviewNode
  comments : Connection CommentNode
deriving DecidableEq, Repr

/-- One outer page of the pull-request search query. -/
structure SearchPage (Id : Type) where
  nodes : List (PRNode Id)
  pageInfo : PageInfo
deriving DecidableEq, Repr

/-- The `Review` class. -/
structure Review where
  login : String
  submitted_at : GhTime
deriving DecidableEq, Repr

/-- The `Comment` class. -/
structure Comment where
  login : String
  created_at : GhTime
deriving DecidableEq, Repr

/-- The `PullRequest` class. -/
structure PullRequest where
  login : String
  created_at : GhTime
  reviews : List Review
  comments : List Comment
deriving DecidableEq, Repr

/-- `PullRequest.add_review`. -/
def PullRequest.add_review (pr : PullRequest) (login : String) (t : GhTime) :
    PullRequest :=
  { pr with reviews := pr.reviews ++ [⟨login, t⟩] }

/-- `PullRequest.add_comment`. -/
def PullRequest.add_comment (pr : PullRequest) (login : String) (t : GhTime) :
    PullRequest :=
  { pr with comments := pr.comments ++ [⟨login, t⟩] }

/-- The remote side of the pull-request query: the page returned for a given
outer cursor, reviews cursor and comments cursor (the `org/repo` name, token
and `created:>=` date are fixed by the caller). -/
def PrApi (Id : Type) : Type :=
  Option String → Option String → Option String → SearchPage Id

/-- Mutable state of the `query_prs` while-loop.  `fetches` counts the
queries issued; it is instrumentation and influences nothing. -/
structure PrLoopState (Id : Type) where
  cursor : Option String
  reviews_cursor : Option String
  comments_cursor : Option String
  pull_requests : List (Id × PullRequest)
  fetches : Nat
deriving DecidableEq, Repr

/-- Body of `for review in reviews['nodes']` in `query_prs`: skip a deleted
author, skip an in-progress review (null `submittedAt`), else append. -/
def record_review {Id : Type} [DecidableEq Id] (pr_id : Id)
    (st : PrLoopState Id) (review : ReviewNode) : PrLoopState Id :=
  match review.author with
  | none => st
  | some a =>
    match review.submittedAt with
    | none => st
    | some t =>
      let d := dictModify st.pull_requests pr_id (fun pr => pr.add_review a t)
      { st with pull_requests := d }

/-- Body of `for comment in comments['nodes']` in `query_prs`. -/
def record_comment {Id : Type} [DecidableEq Id] (pr_id : Id)
    (st : PrLoopState Id) (comment : CommentNode) : PrLoopState Id :=
  match comment.author with
  | none => st
  | some a =>
    let d := dictModify st.pull_requests pr_id
      (fun pr => pr.add_comment a comment.createdAt)
    { st with pull_requests := d }

/-- Body of `for pr in results['nodes']` in `query_prs`: skip a deleted
author, store a fresh `PullRequest` under the node id, append its reviews,
set the reviews cursor from the reviews page info and only in its `else`
branch walk the comments and set the comments cursor. -/
def processNode {Id : Type} [DecidableEq Id] (st : PrLoopState Id)
    (pr : PRNode Id) : PrLoopState Id :=
  match pr.author with
  | none => st
  | some login =>
    let d := dictSet st.pull_requests pr.id ⟨login, pr.createdAt, [], []⟩
    let st1 := { st with pull_requests := d }
    let st2 := pr.reviews.nodes.foldl (record_review pr.id) st1
    if pr.reviews.pageInfo.hasNextPage then
      { st2 with reviews_cursor := some pr.reviews.pageInfo.endCursor }
    else
      let st3 := { st2 with reviews_cursor := none }
      let st4 := pr.comments.nodes.foldl (record_comment pr.id) st3
      if pr.comments.pageInfo.hasNextPage then
        { st4 with comments_cursor := some pr.comments.pageInfo.endCursor }
      else
        { st4 with comments_cursor := none }

/-- State after fetching one outer page and processing all of its nodes. -/
def prStepState {Id : Type} [DecidableEq Id] (api : PrApi Id)
    (st : PrLoopState Id) : PrLoopState Id :=
  (api st.cursor st.reviews_cursor st.comments_cursor).nodes.foldl processNode
    { st with fetches := st.fetches + 1 }

/-- One round of the `query_prs` while-loop: process the page, then decide
whether to continue (`true`) and with which cursors, following the source's
reviews-cursor / comments-cursor / outer-page priority. -/
def stepPrs {Id : Type} [DecidableEq Id] (api : PrApi Id)
    (st : PrLoopState Id) : Bool × PrLoopState Id :=
  let page := api st.cursor st.reviews_cursor st.comments_cursor
  let st1 := prStepState api st
  if st1.reviews_cursor.isSome then (true, st1)
  else if st1.comments_cursor.isSome then (true, st1)
  else if page.pageInfo.hasNextPage then
    (true, { st1 with cursor := some page.pageInfo.endCursor })
  else (false, st1)

/-- The `query_prs` while-loop with fuel; `none` means the loop was still
running when the fuel ran out. -/
def runPrs {Id : Type} [DecidableEq Id] (api : PrApi Id) :
    Nat → PrLoopState Id → Option (PrLoopState Id)
  | 0, _ => none
  | fuel + 1, st =>
    match stepPrs api st with
    | (true, st1) => runPrs api fuel st1
    | (false, st1) => some st1

/-- Initial state of `query_prs`: all three cursors `'null'`, no pull
requests recorded. -/
def initPrState {Id : Type} : PrLoopState Id := ⟨none, none, none, [], 0⟩

/-- `query_prs(org_name, repo_name, token, last_updated)`, returning the
`pull_requests` mapping. -/
def query_prs {Id : Type} [DecidableEq Id] (api : PrApi Id) (fuel : Nat) :
    Option (List (Id × PullRequest)) :=
  (runPrs api fuel initPrState).map (fun st => st.pull_requests)

/-- One `Issue` node of the outer search page. -/
structure IssueNode (Id : Type) where
  id : Id
  author : Option String
  createdAt : GhTime
  comments : Connection CommentNode
deriving DecidableEq, Repr

/-- One outer page of the issue search query. -/
structure IssuePage (Id : Type) where
  nodes : List (IssueNode Id)
  pageInfo : PageInfo
deriving DecidableEq, Repr

/-- The `Issue` class. -/
structure Issue where
  login : String
  created_at : GhTime
  comments : List Comment
deriving DecidableEq, Repr

/-- `Issue.add_comment`. -/
def Issue.add_comment (i : Issue) (login : String) (t : GhTime) : Issue :=
  { i with comments := i.comments ++ [⟨login, t⟩] }

/-- The remote side of the issue query: page for a given outer cursor and
comments cursor. -/
def IssueApi (Id : Type) : Type := Option String → Option String → IssuePage Id

/-- Mutable state of the `query_issues` while-loop. -/
structure IssueLoopState (Id : Type) where
  cursor : Option String
  comments_cursor : Option String
  issues : List (Id × Issue)
  fetches : Nat
deriving DecidableEq, Repr

/-- Body of `for comment in comments['nodes']` in `query_issues`. -/
def record_issue_comment {Id : Type} [DecidableEq Id] (issue_id : Id)
    (st : IssueLoopState Id) (comment : CommentNode) : IssueLoopState Id :=
  match comment.author with
  | none => st
  | some a =>
    let d := dictModify st.issues issue_id
      (fun i => i.add_comment a comment.createdAt)
    { st with issues := d }

/-- Body of `for issue in results['nodes']` in `query_issues`. -/
def processIssueNode {Id : Type} [DecidableEq Id] (st : IssueLoopState Id)
    (node : IssueNode Id) : IssueLoopState Id :=
  match node.author with
  | none => st
  | some login =>
    let d := dictSet st.issues node.id ⟨login, node.createdAt, []⟩
    let st1 := { st with issues := d }
    let st2 := node.comments.nodes.foldl (record_issue_comment node.id) st1
    if node.comments.pageInfo.hasNextPage then
      { st2 with comments_cursor := some node.comments.pageInfo.endCursor }
    else
      { st2 with comments_cursor := none }

/-- One round of the `query_issues` while-loop. -/
def stepIssues {Id : Type} [DecidableEq Id] (api : IssueApi Id)
    (st : IssueLoopState Id) : Bool × IssueLoopState Id :=
  let page := api st.cursor st.comments_cursor
  let st1 := page.nodes.foldl processIssueNode { st with fetches := st.fetches + 1 }
  if st1.comments_cursor.isSome then (true, st1)
  else if page.pageInfo.hasNextPage then
    (true, { st1 with cursor := some page.pageInfo.endCursor })
  else (false, st1)

/-- The `query_issues` while-loop with fuel. -/
def runIssues {Id : Type} [DecidableEq Id] (api : IssueApi Id) :
    Nat → IssueLoopState Id → Option (IssueLoopState Id)
  | 0, _ => none
  | fuel + 1, st =>
    match stepIssues api st with
    | (true, st1) => runIssues api fuel st1
    | (false, st1) => some st1

/-- Initial state of `query_issues`. -/
def initIssueState {Id : Type} : IssueLoopState Id := ⟨none, none, [], 0⟩

/-- `query_issues(org_name, repo_name, token, last_updated)`. -/
def query_issues {Id : Type} [DecidableEq Id] (api : IssueApi Id) (fuel : Nat) :
    Option (List (Id × Issue)) :=
  (runIssues api fuel initIssueState).map (fun st => st.issues)

/-- One repository node of the organization query. -/
structure OrgRepoNode where
  defaultBranchRef : Option String
  name : String
  isArchived : Bool
deriving DecidableEq, Repr

/-- One page of the organization repository listing. -/
structure OrgPage where
  nodes : List OrgRepoNode
  pageInfo : PageInfo
deriving DecidableEq, Repr

/-- The remote side of the organization query. -/
def OrgApi : Type := Option String → OrgPage

/-- The `query_org_repos_from_name` while-loop: append every repository that
has a default branch, then follow the outer cursor. -/
def runOrgRepos (api : OrgApi) :
    Nat → Option String → List String → Option (List String)
  | 0, _, _ => none
  | fuel + 1, cursor, acc =>
    let page := api cursor
    let acc1 := page.nodes.foldl
      (fun a repo =>
        match repo.defaultBranchRef with
        | none => a
        | some _ => a ++ [repo.name]) acc
    if page.pageInfo.hasNextPage then
      runOrgRepos api fuel (some page.pageInfo.endCursor) acc1
    else
      some acc1

/-- `query_org_repos_from_name(org_name, token)`. -/
def query_org_repos_from_name (api : OrgApi) (fuel : Nat) :
    Option (List String) :=
  runOrgRepos api fuel none []

/-- The in-memory `output_data` dict of the collector; `repos_visited` is a
Python set modelled as a duplicate-free list. -/
structure OutputData where
  last_updated : String
  repos_visited : List String
  author_contrib : List (String × AuthorCounts)
deriving DecidableEq, Repr

/-- `if not login in output_data['author_contrib']:` create a fresh
`AuthorCounts(today)` (main loop, repeated for PR, review, comment, issue
and issue-comment authors). -/
def ensure_author (today : PyDate) (contrib : List (String × AuthorCounts))
    (login : String) : List (String × AuthorCounts) :=
  if contrib.any (fun p => p.1 == login) then contrib
  else contrib ++ [(login, AuthorCounts.init today)]

/-- In-place update `output_data['author_contrib'][login].increment_*(...)`;
the outer `none` is the `KeyError` of a missing login, the inner one a
failing increment. -/
def update_author (contrib : List (String × AuthorCounts)) (login : String)
    (f : AuthorCounts → Option AuthorCounts) :
    Option (List (String × AuthorCounts)) :=
  match dictGet? contrib login with
  | none => none
  | some c => (f c).map (fun c1 => dictSet contrib login c1)

/-- `for review in pr.reviews:` of the collector main loop. -/
def aggregate_reviews (today : PyDate) :
    List (String × AuthorCounts) → List Review →
    Option (List (String × AuthorCounts))
  | contrib, [] => some contrib
  | contrib, review :: rest =>
    match update_author (ensure_author today contrib review.login) review.login
        (fun c => c.increment_reviews review.submitted_at.year
          review.submitted_at.month 1) with
    | none => none
    | some contrib1 => aggregate_reviews today contrib1 rest

/-- `for comment in pr.comments:` of the collector main loop. -/
def aggregate_pr_comments (today : PyDate) :
    List (String × AuthorCounts) → List Comment →
    Option (List (String × AuthorCounts))
  | contrib, [] => some contrib
  | contrib, comment :: rest =>
    match update_author (ensure_author today contrib comment.login) comment.login
        (fun c => c.increment_pr_comments comment.created_at.year
          comment.created_at.month 1) with
    | none => none
    | some contrib1 => aggregate_pr_comments today contrib1 rest

/-- `for pr_id, pr in prs.items():` of the collector main loop. -/
def aggregate_prs {Id : Type} (today : PyDate) :
    List (String × AuthorCounts) → List (Id × PullRequest) →
    Option (List (String × AuthorCounts))
  | contrib, [] => some contrib
  | contrib, (_, pr) :: rest =>
    match update_author (ensure_author today contrib pr.login) pr.login
        (fun c => c.increment_prs pr.created_at.year pr.created_at.month 1) with
    | none => none
    | some contrib1 =>
      match aggregate_reviews today contrib1 pr.reviews with
      | none => none
      | some contrib2 =>
        match aggregate_pr_comments today contrib2 pr.comments with
        | none => none
        | some contrib3 => aggregate_prs today contrib3 rest

/-- `for comment in issue.comments:` of the collector main loop. -/
def aggregate_issue_comments (today : PyDate) :
    List (String × AuthorCounts) → List Comment →
    Option (List (String × AuthorCounts))
  | contrib, [] => some contrib
  | contrib, comment :: rest =>
    match update_author (ensure_author today contrib comment.login) comment.login
        (fun c => c.increment_issue_comments comment.created_at.year
          comment.created_at.month 1) with
    | none => none
    | some contrib1 => aggregate_issue_comments today contrib1 rest

/-- `for issue_id, issue in issues.items():` of the collector main loop. -/
def aggregate_issues {Id : Type} (today : PyDate) :
    List (String × AuthorCounts) → List (Id × Issue) →
    Option (List (String × AuthorCounts))
  | contrib, [] => some contrib
  | contrib, (_, issue) :: rest =>
    match update_author (ensure_author today contrib issue.login) issue.login
        (fun c => c.increment_issues issue.created_at.year
          issue.created_at.month 1) with
    | none => none
    | some contrib1 =>
      match aggregate_issue_comments today contrib1 issue.comments with
      | none => none
      | some contrib2 => aggregate_issues today contrib2 rest

/-- Per-repository body of the collector main loop: choose the resume date,
query and aggregate PRs and issues, mark the repository visited.  The first
component of the result is the `last_updated` string the queries were issued
with (instrumentation). -/
def process_repo {Id : Type} [DecidableEq Id]
    (prApi : String → String → String → PrApi Id)
    (issueApi : String → String → String → IssueApi Id)
    (today : PyDate) (fuel : Nat) (data : OutputData)
    (org_name repo_name : String) : Option (String × OutputData) :=
  let full_repo_name := org_name ++ "/" ++ repo_name
  let last_updated :=
    if full_repo_name ∉ data.repos_visited then "2013-01-01"
    else data.last_updated
  match query_prs (prApi org_name repo_name last_updated) fuel with
  | none => none
  | some prs =>
    match aggregate_prs today data.author_contrib prs with
    | none => none
    | some contrib1 =>
      match query_issues (issueApi org_name repo_name last_updated) fuel with
      | none => none
      | some issues =>
        match aggregate_issues today contrib1 issues with
        | none => none
        | some contrib2 =>
          some (last_updated,
            { last_updated := data.last_updated,
              repos_visited := setAdd data.repos_visited full_repo_name,
              author_contrib := contrib2 })

/-- `org_repos[org].add(repo)` after `org_repos[org] = set()` if absent. -/
def orgReposAdd (d : List (String × List String)) (org repo : String) :
    List (String × List String) :=
  let d1 := if d.any (fun p => p.1 == org) then d else d ++ [(org, [])]
  dictModify d1 org (fun s => setAdd s repo)

/-- `for repo in options.repos:` — split on `/`, reject anything that is not
exactly `org/repo` (the `return 1` path is `error`). -/
def repos_to_org_repos :
    List (String × List String) → List String →
    Except Unit (List (String × List String))
  | acc, [] => .ok acc
  | acc, repo :: rest =>
    if (repo.splitOn "/").length ≠ 2 then .error ()
    else
      repos_to_org_repos
        (orgReposAdd acc ((repo.splitOn "/").headD "")
          ((repo.splitOn "/").getD 1 "")) rest

/-- `for org in options.orgs:` — ensure the key and union in the queried
repository list. -/
def expand_orgs (orgApi : String → OrgApi) (fuel : Nat) :
    List (String × List String) → List String →
    Option (List (String × List String))
  | acc, [] => some acc
  | acc, org :: rest =>
    let acc1 := if acc.any (fun p => p.1 == org) then acc else acc ++ [(org, [])]
    match query_org_repos_from_name (orgApi org) fuel with
    | none => none
    | some repos =>
      expand_orgs orgApi fuel (dictModify acc1 org (fun s => repos.foldl setAdd s)) rest

/-- Inner `for repo_name in repos:` of the collector main loop. -/
def process_repo_list {Id : Type} [DecidableEq Id]
    (prApi : String → String → String → PrApi Id)
    (issueApi : String → String → String → IssueApi Id)
    (today : PyDate) (fuel : Nat) (org_name : String) :
    OutputData → List String → Option OutputData
  | data, [] => some data
  | data, repo_name :: rest =>
    match process_repo prApi issueApi today fuel data org_name repo_name with
    | none => none
    | some (_, data1) => process_repo_list prApi issueApi today fuel org_name data1 rest

/-- Outer `for org_name, repos in org_repos.items():`. -/
def process_org_repos {Id : Type} [DecidableEq Id]
    (prApi : String → String → String → PrApi Id)
    (issueApi : String → String → String → IssueApi Id)
    (today : PyDate) (fuel : Nat) :
    OutputData → List (String × List String) → Option OutputData
  | data, [] => some data
  | data, (org_name, repos) :: rest =>
    match process_repo_list prApi issueApi today fuel org_name data repos with
    | none => none
    | some data1 => process_org_repos prApi issueApi today fuel data1 rest

/-- `for datestr, activity in ...items():` of `load_existing_data` for one
month-keyed counter: parse the key with `strptime('%Y-%m')` and add the
stored activity onto the pre-populated counter. -/
def loadCounterFrom :
    List (String × Int) → List (String × Int) → Option (List (String × Int))
  | acc, [] => some acc
  | acc, (datestr, activity) :: rest =>
    match parseMonth datestr with
    | none => none
    | some ym =>
      match dictAdd acc (month_key ym.1 ym.2) activity with
      | none => none
      | some acc1 => loadCounterFrom acc1 rest

/-- Per-author part of `load_existing_data`: a fresh `AuthorCounts(today)`
re-incremented from the five persisted dicts. -/
def load_author (today : PyDate) (values : AuthorCounts) : Option AuthorCounts :=
  match loadCounterFrom (counterInit today) values.prs_by_month with
  | none => none
  | some prs =>
    match loadCounterFrom (counterInit today) values.reviews_by_month with
    | none => none
    | some reviews =>
      match loadCounterFrom (counterInit today) values.pr_comments_by_month with
      | none => none
      | some prComments =>
        match loadCounterFrom (counterInit today) values.issues_by_month with
        | none => none
        | some issues =>
          match loadCounterFrom (counterInit today) values.issue_comments_by_month with
          | none => none
          | some issueComments =>
            some ⟨prs, reviews, prComments, issues, issueComments⟩

/-- `for author, values in data['author_contrib'].items():`. -/
def load_contrib (today : PyDate) :
    List (String × AuthorCounts) → List (String × AuthorCounts) →
    Option (List (String × AuthorCounts))
  | acc, [] => some acc
  | acc, (author, values) :: rest =>
    match load_author today values with
    | none => none
    | some c => load_contrib today (dictSet acc author c) rest

/-- `load_existing_data(filename, today)`: `file = none` models a missing
file; the result `none` models an uncaught exception while reading. -/
def load_existing_data (file : Option OutputData) (today : PyDate) :
    Option OutputData :=
  match file with
  | none => some ⟨date_key today.year today.month today.day, [], []⟩
  | some data =>
    match load_contrib today [] data.author_contrib with
    | none => none
    | some contrib => some ⟨data.last_updated, pySet data.repos_visited, contrib⟩

/-- `write_out_data(filename, data)` with `JSONEncoderWithSets`: the file
content is the dataset itself — sets are written as lists (already lists in
the model) and `AuthorCounts` objects as their five field dicts. -/
def write_out_data (data : OutputData) : OutputData :=
  ⟨data.last_updated, data.repos_visited, data.author_contrib⟩

/-- CLI options of the collector. -/
structure ContributionReportOptions where
  orgs : List String
  repos : List String
deriving DecidableEq, Repr

/-- `main()` of the collector, parameterized by the remote API and the
existing file.  The result is `some (exit_code, written_file)`; `none`
models an uncaught exception or fuel running out inside a query loop. -/
def collector_main {Id : Type} [DecidableEq Id] (options : ContributionReportOptions)
    (prApi : String → String → String → PrApi Id)
    (issueApi : String → String → String → IssueApi Id)
    (orgApi : String → OrgApi) (file : Option OutputData) (today : PyDate)
    (fuel : Nat) : Option (Int × Option OutputData) :=
  if options.repos = [] ∧ options.orgs = [] then some (1, none)
  else
    match load_existing_data file today with
    | none => none
    | some output_data =>
      match repos_to_org_repos [] options.repos with
      | .error _ => some (1, some output_data)
      | .ok acc =>
        match expand_orgs orgApi fuel acc options.orgs with
        | none => none
        | some org_repos =>
          match process_org_repos prApi issueApi today fuel output_data org_repos with
          | none => none
          | some final =>
            some (0, some { final with
              last_updated := date_key today.year today.month today.day })

/-- CLI options of the renderer. -/
structure GraphOptions where
  authors : List String
  anonymize : Bool
  since : PyDate
deriving DecidableEq, Repr

/-- Renderer lazy-zero accumulation:
`if not month in d: d[month] = 0` followed by `d[month] += activity`. -/
def bump (d : List (String × Int)) (k : String) (v : Int) : List (String × Int) :=
  let d1 := if d.any (fun p => p.1 == k) then d else d ++ [(k, 0)]
  d1.map (fun p => if p.1 = k then (p.1, p.2 + v) else p)

/-- One `for month, activity in contrib[...].items():` loop of the renderer;
months strictly before `since` are skipped, the rest are added to the
author's totals and to the overall totals. -/
def add_counter (since : PyDate) :
    List (String × Int) → List (String × Int) → List (String × Int) →
    Option (List (String × Int) × List (String × Int))
  | total, overall, [] => some (total, overall)
  | total, overall, (month, activity) :: rest =>
    match parseMonth month with
    | none => none
    | some ym =>
      if dateLt ⟨ym.1, ym.2, 1⟩ since then
        add_counter since total overall rest
      else
        add_counter since (bump total month activity) (bump overall month activity) rest

/-- The five renderer accumulation loops for one author, in source order. -/
def author_totals (since : PyDate) (overall : List (String × Int))
    (contrib : AuthorCounts) :
    Option (List (String × Int) × List (String × Int)) :=
  match add_counter since [] overall contrib.prs_by_month with
  | none => none
  | some s1 =>
    match add_counter since s1.1 s1.2 contrib.reviews_by_month with
    | none => none
    | some s2 =>
      match add_counter since s2.1 s2.2 contrib.pr_comments_by_month with
      | none => none
      | some s3 =>
        match add_counter since s3.1 s3.2 contrib.issues_by_month with
        | none => none
        | some s4 => add_counter since s4.1 s4.2 contrib.issue_comments_by_month

/-- `for author, contrib in author_contrib.items():` of the renderer main,
threading `author_number` (starts at 1, incremented only past the author
filter) and collecting the plotted series in order. -/
def renderer_loop (options : GraphOptions) :
    Nat → List (String × List (String × Int)) → List (String × Int) →
    List (String × AuthorCounts) →
    Option (List (String × List (String × Int)) × List (String × Int))
  | _, series, overall, [] => some (series, overall)
  | author_number, series, overall, (author, contrib) :: rest =>
    if options.authors ≠ [] ∧ author ∉ options.authors then
      renderer_loop options author_number series overall rest
    else
      match author_totals options.since overall contrib with
      | none => none
      | some (total, overall1) =>
        let munged_author :=
          if options.anonymize then "Developer " ++ toString author_number
          else author
        renderer_loop options (author_number + 1)
          (series ++ [(munged_author, total)]) overall1 rest

/-- The renderer main up to plotting: one labelled series per author kept by
the filter, plus the overall per-month totals the trend line is fit to. -/
def renderer_series (options : GraphOptions)
    (author_contrib : List (String × AuthorCounts)) :
    Option (List (String × List (String × Int)) × List (String × Int)) :=
  renderer_loop options 1 [] [] author_contrib

/-- PR node with the given id and author `dev`, no reviews, no comments
(C4 scenario). -/
def plainPR (i : Nat) : PRNode Nat :=
  ⟨i, some "dev", ⟨2024, 1⟩, ⟨[], ⟨false, ""⟩⟩, ⟨[], ⟨false, ""⟩⟩⟩

/-- Remote with 150 pull requests, 100 on the first outer page and 50 on the
second, each with zero reviews and comments (C4 scenario). -/
def apiC4 : PrApi Nat := fun cursor _ _ =>
  match cursor with
  | none => ⟨(List.range 100).map plainPR, ⟨true, "c1"⟩⟩
  | some _ => ⟨(List.range' 100 50).map plainPR, ⟨false, ""⟩⟩

/-- Remote with a single outer page holding one PR by `bob` that has 150
reviews by `carol`: 100 submitted 2024-01 on the first review sub-page,
then — after review cursor `r1` — 50 submitted 2024-02; no comments
(C1 failing input). -/
def apiC1 : PrApi Nat := fun _ rc _ =>
  match rc with
  | none =>
    ⟨[⟨0, some "bob", ⟨2024, 1⟩,
        ⟨List.replicate 100 ⟨some "carol", some ⟨2024, 1⟩⟩, ⟨true, "r1"⟩⟩,
        ⟨[], ⟨false, ""⟩⟩⟩], ⟨false, ""⟩⟩
  | some _ =>
    ⟨[⟨0, some "bob", ⟨2024, 1⟩,
        ⟨List.replicate 50 ⟨some "carol", some ⟨2024, 2⟩⟩, ⟨false, ""⟩⟩,
        ⟨[], ⟨false, ""⟩⟩⟩], ⟨false, ""⟩⟩

/-- Remote page with two PRs: `alice`'s PR has a continuing comments
sub-page (cursor `ca`), `bob`'s PR a continuing reviews sub-page (cursor
`rb`) (C2 counterexample). -/
def apiC2 : PrApi Nat := fun _ _ _ =>
  ⟨[⟨0, some "alice", ⟨2024, 1⟩, ⟨[], ⟨false, ""⟩⟩,
      ⟨[⟨some "alice", ⟨2024, 1⟩⟩], ⟨true, "ca"⟩⟩⟩,
    ⟨1, some "bob", ⟨2024, 1⟩,
      ⟨[⟨some "bob", some ⟨2024, 1⟩⟩], ⟨true, "rb"⟩⟩,
      ⟨[], ⟨false, ""⟩⟩⟩], ⟨false, ""⟩⟩

/-- Remote with one deleted-author PR carrying one review by `carol` and no
comments (C3 counterexample). -/
def apiC3 : PrApi Nat := fun _ _ _ =>
  ⟨[⟨0, none, ⟨2024, 3⟩, ⟨[⟨some "carol", some ⟨2024, 3⟩⟩], ⟨false, ""⟩⟩,
      ⟨[], ⟨false, ""⟩⟩⟩], ⟨false, ""⟩⟩

/-- Remote whose pull-request search always returns one empty final page
(used by concrete witness scenarios). -/
def emptyPrApi : String → String → String → PrApi Nat :=
  fun _ _ _ _ _ _ => ⟨[], ⟨false, ""⟩⟩

/-- Remote whose issue search always returns one empty final page. -/
def emptyIssueApi : String → String → String → IssueApi Nat :=
  fun _ _ _ _ _ => ⟨[], ⟨false, ""⟩⟩

/-- Remote whose organization listing always returns one empty final page. -/
def emptyOrgApi : String → OrgApi := fun _ _ => ⟨[], ⟨false, ""⟩⟩

/-- A persisted month key is well-formed for run date `today`: it parses
with `strptime('%Y-%m')`, its month lies in the pre-populated window, and it
is the canonical `'%d-%02d'` rendering of that month — exactly the shape of
the keys the collector itself persists. -/
def canonicalKey (today : PyDate) (k : String) : Bool :=
  match parseMonth k with
  | none => false
  | some ym => inWindow today ym.1 ym.2 && (month_key ym.1 ym.2 == k)

/-- One persisted counter dict is well-formed: unique keys, all canonical
in-window month keys. -/
def counterWF (today : PyDate) (l : List (String × Int)) : Bool :=
  decide (l.map Prod.fst).Nodup && l.all (fun p => canonicalKey today p.1)

/-- The anonymized labels `Developer n, Developer n+1, ...` (`count` of
them), as handed out by the renderer's `author_number` counter. -/
def labelsFrom : Nat → Nat → List String
  | _, 0 => []
  | n, count + 1 => ("Developer " ++ toString n) :: labelsFrom (n + 1) count

/-- Renderer author filter: an author is plotted when no `--authors` filter
is given or the author is listed in it (negation of the skip condition
`options.authors and author not in options.authors`). -/
def passesFilter (options : GraphOptions) (p : String × AuthorCounts) : Bool :=
  !(decide (options.authors ≠ [] ∧ p.1 ∉ options.authors))

theorem any_key_iff {κ α : Type} [DecidableEq κ] (d : List (κ × α)) (k : κ) :
    (d.any (fun p => p.1 == k)) = true ↔ k ∈ d.map Prod.fst := by
  simp [List.any_eq_true, List.mem_map]

theorem keys_map_fst_preserved {κ α : Type} (d : List (κ × α))
    (h : κ × α → κ × α) (hh : ∀ p, (h p).1 = p.1) :
    (d.map h).map Prod.fst = d.map Prod.fst := by
  induction d with
  | nil => rfl
  | cons p rest ih => simp [hh, ih]

theorem keys_dictSet_of_any {κ α : Type} [DecidableEq κ] (d : List (κ × α))
    (k : κ) (v : α) (h : (d.any (fun p => p.1 == k)) = true) :
    (dictSet d k v).map Prod.fst = d.map Prod.fst := by
  unfold dictSet
  rw [if_pos h]
  apply keys_map_fst_preserved
  intro p
  by_cases hc : p.1 = k <;> simp [hc]

theorem mem_keys_dictSet_self {κ α : Type} [DecidableEq κ] (d : List (κ × α))
    (k : κ) (v : α) : k ∈ (dictSet d k v).map Prod.fst := by
  by_cases h : (d.any (fun p => p.1 == k)) = true
  · rw [keys_dictSet_of_any d k v h]
    exact (any_key_iff d k).mp h
  · unfold dictSet
    rw [if_neg h]
    simp

theorem mem_keys_dictSet_of_mem {κ α : Type} [DecidableEq κ] (d : List (κ × α))
    (k k' : κ) (v : α) (h : k' ∈ d.map Prod.fst) :
    k' ∈ (dictSet d k v).map Prod.fst := by
  by_cases hc : (d.any (fun p => p.1 == k)) = true
  · rw [keys_dictSet_of_any d k v hc]; exact h
  · unfold dictSet
    rw [if_neg hc]
    simp only [List.map_append, List.mem_append]
    exact Or.inl h

theorem dictSet_values_zero {κ : Type} [DecidableEq κ] (d : List (κ × Int))
    (k : κ) (h0 : ∀ p ∈ d, p.2 = (0 : Int)) :
    ∀ p ∈ dictSet d k 0, p.2 = (0 : Int) := by
  intro p hp
  unfold dictSet at hp
  by_cases hc : (d.any (fun p => p.1 == k)) = true
  · rw [if_pos hc] at hp
    simp only [List.mem_map] at hp
    obtain ⟨q, hq, he⟩ := hp
    by_cases hk : q.1 = k
    · rw [if_pos hk] at he
      rw [← he]
    · rw [if_neg hk] at he
      rw [← he]
      exact h0 q hq
  · rw [if_neg hc] at hp
    rcases List.mem_append.mp hp with hin | hin
    · exact h0 p hin
    · simp at hin
      rw [hin]

theorem foldl_dictSet_mem_keys {κ : Type} [DecidableEq κ] (f : Nat × Nat → κ) :
    ∀ (L : List (Nat × Nat)) (acc : List (κ × Int)) (k : κ),
      (k ∈ acc.map Prod.fst ∨ ∃ ym ∈ L, f ym = k) →
      k ∈ (L.foldl (fun d ym => dictSet d (f ym) 0) acc).map Prod.fst := by
  intro L
  induction L with
  | nil =>
    intro acc k h
    rcases h with h | h
    · exact h
    · simp at h
  | cons ym rest ih =>
    intro acc k h
    simp only [List.foldl_cons]
    rcases h with h | h
    · exact ih (dictSet acc (f ym) 0) k
        (Or.inl (mem_keys_dictSet_of_mem acc (f ym) k 0 h))
    · obtain ⟨ym', hmem, heq⟩ := h
      rcases List.mem_cons.mp hmem with he | hrest
      · subst he
        subst heq
        exact ih (dictSet acc (f ym') 0) (f ym')
          (Or.inl (mem_keys_dictSet_self acc (f ym') 0))
      · exact ih (dictSet acc (f ym) 0) k (Or.inr ⟨ym', hrest, heq⟩)

theorem foldl_dictSet_values_zero {κ : Type} [DecidableEq κ] (f : Nat × Nat → κ) :
    ∀ (L : List (Nat × Nat)) (acc : List (κ × Int)),
      (∀ p ∈ acc, p.2 = (0 : Int)) →
      ∀ p ∈ L.foldl (fun d ym => dictSet d (f ym) 0) acc, p.2 = (0 : Int) := by
  intro L
  induction L with
  | nil => intro acc h; exact h
  | cons ym rest ih =>
    intro acc h
    simp only [List.foldl_cons]
    exact ih (dictSet acc (f ym) 0) (dictSet_values_zero acc (f ym) h)

theorem dictGet?_of_mem_zero {κ : Type} [DecidableEq κ] (d : List (κ × Int))
    (k : κ) (hm : k ∈ d.map Prod.fst) (h0 : ∀ p ∈ d, p.2 = (0 : Int)) :
    dictGet? d k = some 0 := by
  have hex : ∃ p ∈ d, (p.1 == k) = true := by
    simp only [List.mem_map] at hm
    obtain ⟨p, hp, he⟩ := hm
    exact ⟨p, hp, by simp [he]⟩
  have hsome : (d.find? (fun p => p.1 == k)).isSome := by
    rw [List.find?_isSome]
    exact hex
  obtain ⟨q, hq⟩ := Option.isSome_iff_exists.mp hsome
  have hqd : q ∈ d := List.mem_of_find?_eq_some hq
  unfold dictGet?
  rw [hq]
  simp [h0 q hqd]

theorem mem_monthsSeq (today : PyDate) (y m : Nat)
    (h : inWindow today y m = true) : (y, m) ∈ monthsSeq today := by
  simp only [inWindow, Bool.and_eq_true, Bool.or_eq_true, decide_eq_true_eq] at h
  obtain ⟨⟨⟨h13, h1m⟩, h12⟩, hcase⟩ := h
  unfold monthsSeq
  rw [List.mem_append]
  rcases hcase with hlt | ⟨heq, hle⟩
  · left
    rw [List.mem_flatMap]
    refine ⟨y, ?_, ?_⟩
    · rw [List.mem_range'_1]
      omega
    · rw [List.mem_map]
      exact ⟨m, by rw [List.mem_range'_1]; omega, rfl⟩
  · right
    rw [List.mem_map]
    exact ⟨m, by rw [List.mem_range'_1]; omega, by rw [heq]⟩

theorem counterInit_values_zero (today : PyDate) :
    ∀ p ∈ counterInit today, p.2 = (0 : Int) := by
  unfold counterInit
  exact foldl_dictSet_values_zero _ (monthsSeq today) [] (by simp)

theorem counterInit_mem (today : PyDate) (y m : Nat)
    (h : inWindow today y m = true) :
    month_key y m ∈ (counterInit today).map Prod.fst := by
  unfold counterInit
  exact foldl_dictSet_mem_keys _ (monthsSeq today) [] (month_key y m)
    (Or.inr ⟨(y, m), mem_monthsSeq today y m h, rfl⟩)

theorem counterInit_get (today : PyDate) (y m : Nat)
    (h : inWindow today y m = true) :
    dictGet? (counterInit today) (month_key y m) = some 0 :=
  dictGet?_of_mem_zero _ _ (counterInit_mem today y m h)
    (counterInit_values_zero today)

theorem dictAdd_isSome_of_mem {κ : Type} [DecidableEq κ] (d : List (κ × Int))
    (k : κ) (v : Int) (h : k ∈ d.map Prod.fst) :
    (dictAdd d k v).isSome = true := by
  unfold dictAdd
  rw [if_pos ((any_key_iff d k).mpr h)]
  rfl

theorem map_isSome {α β : Type} (o : Option α) (f : α → β) :
    (o.map f).isSome = o.isSome := by
  cases o <;> rfl

/-- C6: a freshly constructed `AuthorCounts` for run date `today` holds, in
each of its five counters, the key of every month from 2013-01 through the
month of `today` with value 0, and each of the five increment operations
succeeds (no `KeyError`) on any month of that window. -/
theorem c6_counters_prepopulated (today : PyDate) (y m : Nat) (activity : Int)
    (h : inWindow today y m = true) :
    (dictGet? (AuthorCounts.init today).prs_by_month (month_key y m) = some 0 ∧
     dictGet? (AuthorCounts.init today).reviews_by_month (month_key y m) = some 0 ∧
     dictGet? (AuthorCounts.init today).pr_comments_by_month (month_key y m) = some 0 ∧
     dictGet? (AuthorCounts.init today).issues_by_month (month_key y m) = some 0 ∧
     dictGet? (AuthorCounts.init today).issue_comments_by_month (month_key y m) = some 0) ∧
    (((AuthorCounts.init today).increment_prs y m activity).isSome = true ∧
     ((AuthorCounts.init today).increment_reviews y m activity).isSome = true ∧
     ((AuthorCounts.init today).increment_pr_comments y m activity).isSome = true ∧
     ((AuthorCounts.init today).increment_issues y m activity).isSome = true ∧
     ((AuthorCounts.init today).increment_issue_comments y m activity).isSome = true) := by
  have hget := counterInit_get today y m h
  have hmem := counterInit_mem today y m h
  have hadd := dictAdd_isSome_of_mem (counterInit today) (month_key y m) activity hmem
  constructor
  · refine ⟨?_, ?_, ?_, ?_, ?_⟩ <;> simpa only [AuthorCounts.init] using hget
  · refine ⟨?_, ?_, ?_, ?_, ?_⟩
    · rw [AuthorCounts.increment_prs, map_isSome]
      simpa only [AuthorCounts.init] using hadd
    · rw [AuthorCounts.increment_reviews, map_isSome]
      simpa only [AuthorCounts.init] using hadd
    · rw [AuthorCounts.increment_pr_comments, map_isSome]
      simpa only [AuthorCounts.init] using hadd
    · rw [AuthorCounts.increment_issues, map_isSome]
      simpa only [AuthorCounts.init] using hadd
    · rw [AuthorCounts.increment_issue_comments, map_isSome]
      simpa only [AuthorCounts.init] using hadd

/-- Witness for C6 at the concrete run date 2024-03-15 and month 2013-05. -/
theorem c6_counters_prepopulated_witness :
    ((AuthorCounts.init ⟨2024, 3, 15⟩).increment_prs 2013 5 1).isSome = true :=
  (c6_counters_prepopulated ⟨2024, 3, 15⟩ 2013 5 1 (by decide)).2.1

theorem runPrs_add_fuel {Id : Type} [DecidableEq Id] (api : PrApi Id) :
    ∀ (fuel : Nat) (st r : PrLoopState Id), runPrs api fuel st = some r →
      ∀ n, runPrs api (fuel + n) st = some r := by
  intro fuel
  induction fuel with
  | zero => intro st r h; simp [runPrs] at h
  | succ f ih =>
    intro st r h n
    have : f + 1 + n = (f + n) + 1 := by omega
    rw [this]
    rw [runPrs] at h ⊢
    cases hs : stepPrs api st with
    | mk cont st1 =>
      rw [hs] at h
      cases cont with
      | true => exact ih st1 r h n
      | false => exact h

/-- C4: with 150 pull requests — 100 on the first outer page and 50 on the
second — each with zero reviews and comments and non-null authors,
`query_prs` issues exactly two outer-page fetches, the loop terminates (the
result is reached at fuel 2 and is stable under any extra fuel), and the
returned mapping holds all 150 pull requests exactly once (its key list is
exactly `0..149`). -/
theorem c4_two_pages_all_prs_once :
    ((runPrs apiC4 2 initPrState).map
        (fun st => (st.fetches, st.pull_requests.map Prod.fst)) =
      some (2, List.range 150)) ∧
    (∀ n, runPrs apiC4 (2 + n) initPrState = runPrs apiC4 2 initPrState) := by
  constructor
  · decide
  · intro n
    have h : (runPrs apiC4 2 initPrState).isSome = true := by decide
    obtain ⟨r, hr⟩ := Option.isSome_iff_exists.mp h
    rw [hr]
    exact runPrs_add_fuel apiC4 2 initPrState r hr n

/-- C1 (evaluation at the failing input): on a repository whose single PR
has 150 reviews split over two review sub-pages (100 submitted 2024-01, then
50 submitted 2024-02) and no comments, `query_prs` terminates after two
fetches but returns the PR with only the 50 second-sub-page reviews: the 100
reviews of the first sub-page are lost, because re-walking the outer page
rebinds `pull_requests[pr_id]` to a fresh `PullRequest`.  The claim asserts
all 150 reviews are present exactly once. -/
theorem c1_inner_pagination_loses_reviews :
    (runPrs apiC1 2 initPrState).map (fun st => (st.fetches, st.pull_requests)) =
      some (2, [(0, ⟨"bob", ⟨2024, 1⟩,
        List.replicate 50 ⟨"carol", ⟨2024, 2⟩⟩, []⟩)]) := by
  decide

/-- C2 (counterexample): one round of the loop on a page with two PRs —
`alice`'s with a continuing comments sub-page, `bob`'s with a continuing
reviews sub-page — continues via the reviews-cursor branch yet changes BOTH
inner cursors (each was `null` before the round), refuting "exactly one
cursor advances ... only the reviews cursor advances".  The cursors are
shared across the PRs of the page: `alice`'s node left a comments cursor and
`bob`'s node a reviews cursor in the same round. -/
theorem c2_counterexample :
    stepPrs apiC2 initPrState =
      (true,
        { cursor := none, reviews_cursor := some "rb",
          comments_cursor := some "ca",
          pull_requests :=
            [(0, ⟨"alice", ⟨2024, 1⟩, [], [⟨"alice", ⟨2024, 1⟩⟩]⟩),
             (1, ⟨"bob", ⟨2024, 1⟩, [⟨"bob", ⟨2024, 1⟩⟩], []⟩)],
          fetches := 1 }) := by
  decide

/-- C3 (counterexample): for a repository whose single PR has a deleted
(null) author but carries one review by `carol`, the collected-and-aggregated
dataset is empty — in particular `carol`'s review is NOT counted, refuting
the claim that reviews on a deleted-author PR are still counted. -/
theorem c3_counterexample :
    (query_prs apiC3 1).bind (fun prs => aggregate_prs ⟨2024, 6, 1⟩ [] prs) =
      some [] := by
  decide

theorem dictGet?_nil {κ α : Type} [DecidableEq κ] (k : κ) :
    dictGet? ([] : List (κ × α)) k = none := rfl

theorem dictGet?_cons {κ α : Type} [DecidableEq κ] (p : κ × α)
    (rest : List (κ × α)) (k : κ) :
    dictGet? (p :: rest) k =
      if p.1 = k then some p.2 else dictGet? rest k := by
  unfold dictGet?
  by_cases h : p.1 = k
  · rw [List.find?_cons_of_pos _ (by simpa using h), if_pos h]
    rfl
  · rw [List.find?_cons_of_neg _ (by simpa using h), if_neg h]

theorem dictGet?_dictModify_self {κ α : Type} [DecidableEq κ]
    (d : List (κ × α)) (k : κ) (f : α → α) :
    dictGet? (dictModify d k f) k = (dictGet? d k).map f := by
  induction d with
  | nil => rfl
  | cons p rest ih =>
    unfold dictModify at ih ⊢
    rw [List.map_cons, dictGet?_cons, dictGet?_cons]
    by_cases h : p.1 = k
    · rw [if_pos h]
      simp [h]
    · rw [if_neg h]
      simp only [if_neg h]
      exact ih

theorem dictGet?_dictModify_ne {κ α : Type} [DecidableEq κ]
    (d : List (κ × α)) (k k' : κ) (f : α → α) (hne : k' ≠ k) :
    dictGet? (dictModify d k f) k' = dictGet? d k' := by
  induction d with
  | nil => rfl
  | cons p rest ih =>
    unfold dictModify at ih ⊢
    rw [List.map_cons, dictGet?_cons, dictGet?_cons]
    by_cases h : p.1 = k
    · have h2 : ¬ (p.1 = k') := by rw [h]; exact fun he => hne he.symm
      rw [if_pos h]
      simp only [h2, if_neg, if_false]
      simpa using ih
    · rw [if_neg h]
      by_cases h3 : p.1 = k'
      · simp [h3]
      · simp only [if_neg h3]
        exact ih

theorem dictGet?_dictSet_self {κ α : Type} [DecidableEq κ]
    (d : List (κ × α)) (k : κ) (v : α) :
    dictGet? (dictSet d k v) k = some v := by
  induction d with
  | nil => simp [dictSet, dictGet?]
  | cons p rest ih =>
    unfold dictSet at ih ⊢
    by_cases h : p.1 = k
    · have hany : ((p :: rest).any (fun q => q.1 == k)) = true := by
        simp [List.any_cons, h]
      rw [if_pos hany, List.map_cons, dictGet?_cons]
      simp [h]
    · have hact : ((p :: rest).any (fun q => q.1 == k)) =
          (rest.any (fun q => q.1 == k)) := by
        simp [List.any_cons, h]
      by_cases ha : (rest.any (fun q => q.1 == k)) = true
      · rw [if_pos (by rw [hact]; exact ha), List.map_cons, dictGet?_cons]
        rw [if_pos ha] at ih
        simp only [if_neg h]
        exact ih
      · rw [if_neg (by rw [hact]; exact ha), List.cons_append, dictGet?_cons]
        rw [if_neg ha] at ih
        simp only [if_neg h]
        exact ih

theorem dictSet_eq_modify {κ α : Type} [DecidableEq κ]
    (d : List (κ × α)) (k : κ) (v : α)
    (h : (d.any (fun p => p.1 == k)) = true) :
    dictSet d k v = dictModify d k (fun _ => v) := by
  unfold dictSet dictModify
  rw [if_pos h]

theorem dictSet_eq_append {κ α : Type} [DecidableEq κ]
    (d : List (κ × α)) (k : κ) (v : α)
    (h : ¬ (d.any (fun p => p.1 == k)) = true) :
    dictSet d k v = d ++ [(k, v)] := by
  unfold dictSet
  rw [if_neg h]

theorem dictGet?_append_single_ne {κ α : Type} [DecidableEq κ]
    (d : List (κ × α)) (k k' : κ) (v : α) (hne : k' ≠ k) :
    dictGet? (d ++ [(k, v)]) k' = dictGet? d k' := by
  induction d with
  | nil =>
    rw [List.nil_append, dictGet?_cons]
    have h : ¬ ((k, v).1 = k') := fun he => hne (Eq.symm he)
    rw [if_neg h]
  | cons p rest ih =>
    rw [List.cons_append, dictGet?_cons, dictGet?_cons]
    by_cases h : p.1 = k'
    · simp [h]
    · simp only [if_neg h]
      exact ih

theorem dictGet?_dictSet_ne {κ α : Type} [DecidableEq κ]
    (d : List (κ × α)) (k k' : κ) (v : α) (hne : k' ≠ k) :
    dictGet? (dictSet d k v) k' = dictGet? d k' := by
  by_cases h : (d.any (fun p => p.1 == k)) = true
  · rw [dictSet_eq_modify d k v h]
    exact dictGet?_dictModify_ne d k k' _ hne
  · rw [dictSet_eq_append d k v h]
    exact dictGet?_append_single_ne d k k' v hne

theorem record_review_cursor {Id : Type} [DecidableEq Id] (i : Id)
    (st : PrLoopState Id) (r : ReviewNode) :
    (record_review i st r).cursor = st.cursor := by
  unfold record_review
  split
  · rfl
  · split
    · rfl
    · rfl

theorem record_review_comments_cursor {Id : Type} [DecidableEq Id] (i : Id)
    (st : PrLoopState Id) (r : ReviewNode) :
    (record_review i st r).comments_cursor = st.comments_cursor := by
  unfold record_review
  split
  · rfl
  · split
    · rfl
    · rfl

theorem record_comment_cursor {Id : Type} [DecidableEq Id] (i : Id)
    (st : PrLoopState Id) (c : CommentNode) :
    (record_comment i st c).cursor = st.cursor := by
  unfold record_comment
  split
  · rfl
  · rfl

theorem foldl_record_review_cursor {Id : Type} [DecidableEq Id] (i : Id)
    (l : List ReviewNode) :
    ∀ st : PrLoopState Id, (l.foldl (record_review i) st).cursor = st.cursor := by
  induction l with
  | nil => intro st; rfl
  | cons r rest ih =>
    intro st
    rw [List.foldl_cons, ih (record_review i st r), record_review_cursor]

theorem foldl_record_review_comments_cursor {Id : Type} [DecidableEq Id]
    (i : Id) (l : List ReviewNode) :
    ∀ st : PrLoopState Id,
      (l.foldl (record_review i) st).comments_cursor = st.comments_cursor := by
  induction l with
  | nil => intro st; rfl
  | cons r rest ih =>
    intro st
    rw [List.foldl_cons, ih (record_review i st r),
      record_review_comments_cursor]

theorem foldl_record_comment_cursor {Id : Type} [DecidableEq Id] (i : Id)
    (l : List CommentNode) :
    ∀ st : PrLoopState Id, (l.foldl (record_comment i) st).cursor = st.cursor := by
  induction l with
  | nil => intro st; rfl
  | cons c rest ih =>
    intro st
    rw [List.foldl_cons, ih (record_comment i st c), record_comment_cursor]

theorem record_review_entry {Id : Type} [DecidableEq Id] (i : Id)
    (st : PrLoopState Id) (r : ReviewNode) (e : PullRequest)
    (h : dictGet? st.pull_requests i = some e) :
    ∃ e1, dictGet? (record_review i st r).pull_requests i = some e1 ∧
      e1.login = e.login ∧ e1.comments = e.comments := by
  cases hra : r.author with
  | none =>
    refine ⟨e, ?_, rfl, rfl⟩
    simp only [record_review, hra]
    exact h
  | some a =>
    cases hrt : r.submittedAt with
    | none =>
      refine ⟨e, ?_, rfl, rfl⟩
      simp only [record_review, hra, hrt]
      exact h
    | some t =>
      have hm := dictGet?_dictModify_self st.pull_requests i
        (fun pr => pr.add_review a t)
      rw [h] at hm
      refine ⟨e.add_review a t, ?_, rfl, rfl⟩
      simp only [record_review, hra, hrt]
      exact hm

theorem foldl_record_review_entry {Id : Type} [DecidableEq Id] (i : Id)
    (l : List ReviewNode) :
    ∀ (st : PrLoopState Id) (e : PullRequest),
      dictGet? st.pull_requests i = some e →
      ∃ e1, dictGet? ((l.foldl (record_review i) st).pull_requests) i = some e1 ∧
        e1.login = e.login ∧ e1.comments = e.comments := by
  induction l with
  | nil => intro st e h; exact ⟨e, h, rfl, rfl⟩
  | cons r rest ih =>
    intro st e h
    rw [List.foldl_cons]
    obtain ⟨e1, h1, hl, hc⟩ := record_review_entry i st r e h
    obtain ⟨e2, h2, hl2, hc2⟩ := ih (record_review i st r) e1 h1
    exact ⟨e2, h2, hl2.trans hl, hc2.trans hc⟩

theorem processNode_cursor {Id : Type} [DecidableEq Id] (st : PrLoopState Id)
    (pr : PRNode Id) : (processNode st pr).cursor = st.cursor := by
  cases hpa : pr.author with
  | none => simp [processNode, hpa]
  | some login =>
    by_cases hn : pr.reviews.pageInfo.hasNextPage
    · simp [processNode, hpa, hn, foldl_record_review_cursor]
    · by_cases hc : pr.comments.pageInfo.hasNextPage <;>
        simp [processNode, hpa, hn, hc, foldl_record_review_cursor,
          foldl_record_comment_cursor]

theorem foldl_processNode_cursor {Id : Type} [DecidableEq Id]
    (l : List (PRNode Id)) :
    ∀ st : PrLoopState Id, (l.foldl processNode st).cursor = st.cursor := by
  induction l with
  | nil => intro st; rfl
  | cons pr rest ih =>
    intro st
    rw [List.foldl_cons, ih (processNode st pr), processNode_cursor]

theorem prStepState_cursor {Id : Type} [DecidableEq Id] (api : PrApi Id)
    (st : PrLoopState Id) : (prStepState api st).cursor = st.cursor := by
  unfold prStepState
  rw [foldl_processNode_cursor]

/-- C2 (amended): the advance decision of each round is taken, by priority,
on the shared cursor variables as they stand after processing every PR of
the fetched page: if the shared reviews cursor is set the loop repeats
without touching the outer cursor; otherwise if the shared comments cursor
is set the loop repeats without touching the outer cursor; otherwise if the
outer page has a next page the outer cursor advances (both inner cursors
being null at that point); otherwise the loop terminates.  Because the inner
cursors are shared across the PRs of a page, a single round may change both
of them.  Per PR, comments are not walked in a round in which that PR's
reviews sub-page has a next page: the PR's freshly stored entry still has no
comments and the shared comments cursor is left untouched by that node. -/
theorem c2_cursor_priority {Id : Type} [DecidableEq Id] :
    (∀ (api : PrApi Id) (st : PrLoopState Id),
      ((prStepState api st).reviews_cursor.isSome = true →
        stepPrs api st = (true, prStepState api st) ∧
          (prStepState api st).cursor = st.cursor) ∧
      ((prStepState api st).reviews_cursor = none →
        (prStepState api st).comments_cursor.isSome = true →
        stepPrs api st = (true, prStepState api st) ∧
          (prStepState api st).cursor = st.cursor) ∧
      ((prStepState api st).reviews_cursor = none →
        (prStepState api st).comments_cursor = none →
        (api st.cursor st.reviews_cursor st.comments_cursor).pageInfo.hasNextPage = true →
        stepPrs api st = (true, { prStepState api st with
          cursor := some (api st.cursor st.reviews_cursor st.comments_cursor).pageInfo.endCursor })) ∧
      ((prStepState api st).reviews_cursor = none →
        (prStepState api st).comments_cursor = none →
        (api st.cursor st.reviews_cursor st.comments_cursor).pageInfo.hasNextPage = false →
        stepPrs api st = (false, prStepState api st))) ∧
    (∀ (st : PrLoopState Id) (pr : PRNode Id) (login : String),
      pr.author = some login → pr.reviews.pageInfo.hasNextPage = true →
      (processNode st pr).comments_cursor = st.comments_cursor ∧
      (processNode st pr).reviews_cursor = some pr.reviews.pageInfo.endCursor ∧
      ∃ e, dictGet? (processNode st pr).pull_requests pr.id = some e ∧
        e.login = login ∧ e.comments = []) := by
  constructor
  · intro api st
    refine ⟨?_, ?_, ?_, ?_⟩
    · intro hrc
      exact ⟨by simp [stepPrs, hrc], prStepState_cursor api st⟩
    · intro hrc hcc
      exact ⟨by simp [stepPrs, hrc, hcc], prStepState_cursor api st⟩
    · intro hrc hcc hn
      simp [stepPrs, hrc, hcc, hn]
    · intro hrc hcc hn
      simp [stepPrs, hrc, hcc, hn]
  · intro st pr login hpa hn
    refine ⟨?_, ?_, ?_⟩
    · simp [processNode, hpa, hn, foldl_record_review_comments_cursor]
    · simp [processNode, hpa, hn]
    · have hbase : dictGet?
          (dictSet st.pull_requests pr.id ⟨login, pr.createdAt, [], []⟩) pr.id =
          some ⟨login, pr.createdAt, [], []⟩ :=
        dictGet?_dictSet_self st.pull_requests pr.id _
      obtain ⟨e1, h1, hl, hc⟩ := foldl_record_review_entry pr.id pr.reviews.nodes
        { st with pull_requests :=
            dictSet st.pull_requests pr.id ⟨login, pr.createdAt, [], []⟩ }
        ⟨login, pr.createdAt, [], []⟩ hbase
      refine ⟨e1, ?_, hl, hc⟩
      simp only [processNode, hpa, hn]
      simpa using h1

/-- Witness for the C2 amended statement: the reviews-cursor branch taken at
the concrete `apiC2` round. -/
theorem c2_cursor_priority_witness :
    stepPrs apiC2 initPrState = (true, prStepState apiC2 initPrState) ∧
      (prStepState apiC2 initPrState).cursor =
        (initPrState : PrLoopState Nat).cursor :=
  (c2_cursor_priority.1 apiC2 initPrState).1 (by decide)

/-- C3 (amended): a pull request whose author is null (deleted account) is
skipped entirely by `query_prs` — the node contributes neither the PR itself
nor any of its reviews or comments, even those with non-null authors; on the
concrete deleted-author repository the aggregated dataset stays empty. -/
theorem c3_null_author_pr_skipped {Id : Type} [DecidableEq Id] :
    (∀ (st : PrLoopState Id) (pr : PRNode Id), pr.author = none →
      processNode st pr = st) ∧
    ((query_prs apiC3 1).bind (fun prs => aggregate_prs ⟨2024, 6, 1⟩ [] prs) =
      some []) := by
  constructor
  · intro st pr h
    unfold processNode
    rw [h]
  · decide

/-- Witness for the C3 amended statement at a concrete deleted-author node. -/
theorem c3_null_author_pr_skipped_witness :
    processNode (initPrState : PrLoopState Nat)
      ⟨0, none, ⟨2024, 1⟩, ⟨[], ⟨false, ""⟩⟩, ⟨[], ⟨false, ""⟩⟩⟩ = initPrState :=
  c3_null_author_pr_skipped.1 initPrState _ rfl

/-- C5: for every repository processed in a run, the `created:>=` filter
date the pull-request and issue queries are issued with is the fixed epoch
`2013-01-01` when the repository's `org/repo` name is not in the loaded
dataset's `repos_visited`, and the dataset's stored `last_updated` when it
is. -/
theorem c5_resume_date {Id : Type} [DecidableEq Id]
    (prApi : String → String → String → PrApi Id)
    (issueApi : String → String → String → IssueApi Id)
    (today : PyDate) (fuel : Nat) (data : OutputData)
    (org_name repo_name : String) (lu : String) (result : OutputData)
    (h : process_repo prApi issueApi today fuel data org_name repo_name =
      some (lu, result)) :
    ((org_name ++ "/" ++ repo_name) ∉ data.repos_visited → lu = "2013-01-01") ∧
    ((org_name ++ "/" ++ repo_name) ∈ data.repos_visited →
      lu = data.last_updated) := by
  have hfst : ∀ (s : String),
      process_repo prApi issueApi today fuel data org_name repo_name =
        some (lu, result) →
      ((if (org_name ++ "/" ++ repo_name) ∉ data.repos_visited
          then "2013-01-01" else data.last_updated) = s) → lu = s := by
    intro s hp hs
    simp only [process_repo] at hp
    rw [hs] at hp
    cases hq : query_prs (prApi org_name repo_name s) fuel with
    | none => rw [hq] at hp; exact absurd hp (by simp)
    | some prs =>
      rw [hq] at hp
      simp only at hp
      cases ha : aggregate_prs today data.author_contrib prs with
      | none => rw [ha] at hp; exact absurd hp (by simp)
      | some contrib1 =>
        rw [ha] at hp
        simp only at hp
        cases hqi : query_issues (issueApi org_name repo_name s) fuel with
        | none => rw [hqi] at hp; exact absurd hp (by simp)
        | some issues =>
          rw [hqi] at hp
          simp only at hp
          cases hai : aggregate_issues today contrib1 issues with
          | none => rw [hai] at hp; exact absurd hp (by simp)
          | some contrib2 =>
            rw [hai] at hp
            simp only [Option.some.injEq, Prod.mk.injEq] at hp
            exact hp.1.symm
  constructor
  · intro hm
    exact hfst "2013-01-01" h (by rw [if_pos hm])
  · intro hm
    exact hfst data.last_updated h (by rw [if_neg (by simpa using hm)])

/-- Witness for C5: a repository not in `repos_visited` queried from the
epoch date. -/
theorem c5_resume_date_witness :
    (process_repo emptyPrApi emptyIssueApi ⟨2024, 2, 3⟩ 1
        ⟨"2024-01-05", [], []⟩ "a" "b" =
      some ("2013-01-01", ⟨"2024-01-05", ["a/b"], []⟩)) ∧
    ("2013-01-01" : String) = "2013-01-01" :=
  ⟨by decide,
    (c5_resume_date emptyPrApi emptyIssueApi ⟨2024, 2, 3⟩ 1
      ⟨"2024-01-05", [], []⟩ "a" "b" "2013-01-01" ⟨"2024-01-05", ["a/b"], []⟩
      (by decide)).1 (by decide)⟩

theorem repos_to_org_repos_error :
    ∀ (repos : List String) (acc : List (String × List String)),
      (∃ r ∈ repos, (r.splitOn "/").length ≠ 2) →
      repos_to_org_repos acc repos = .error () := by
  intro repos
  induction repos with
  | nil => intro acc h; simp at h
  | cons r rest ih =>
    intro acc h
    unfold repos_to_org_repos
    by_cases hlen : (r.splitOn "/").length ≠ 2
    · rw [if_pos hlen]
    · rw [if_neg hlen]
      have hrest : ∃ x ∈ rest, (x.splitOn "/").length ≠ 2 := by
        obtain ⟨x, hx, hxl⟩ := h
        rcases List.mem_cons.mp hx with he | hr
        · subst he; exact absurd hxl hlen
        · exact ⟨x, hr, hxl⟩
      exact ih _ hrest

theorem repos_to_org_repos_ok :
    ∀ (repos : List String) (acc : List (String × List String)),
      (∀ r ∈ repos, (r.splitOn "/").length = 2) →
      ∃ d, repos_to_org_repos acc repos = .ok d := by
  intro repos
  induction repos with
  | nil => intro acc _; exact ⟨acc, rfl⟩
  | cons r rest ih =>
    intro acc h
    unfold repos_to_org_repos
    rw [if_neg (not_not_intro (h r (List.mem_cons_self r rest)))]
    exact ih _ (fun x hx => h x (List.mem_cons_of_mem r hx))

/-- C8: the collector's `main` returns exit code 1 when neither `--repos`
nor `--orgs` is supplied; returns 1 when some `--repos` entry does not split
on `/` into exactly two parts (given the existing data file loads); and in
every other completed run — every `--repos` entry well-formed and at least
one target given — the returned code is 0. -/
theorem c8_exit_codes {Id : Type} [DecidableEq Id]
    (options : ContributionReportOptions)
    (prApi : String → String → String → PrApi Id)
    (issueApi : String → String → String → IssueApi Id)
    (orgApi : String → OrgApi) (file : Option OutputData) (today : PyDate)
    (fuel : Nat) :
    (options.repos = [] → options.orgs = [] →
      collector_main options prApi issueApi orgApi file today fuel =
        some (1, none)) ∧
    (∀ d, (∃ r ∈ options.repos, (r.splitOn "/").length ≠ 2) →
      load_existing_data file today = some d →
      collector_main options prApi issueApi orgApi file today fuel =
        some (1, some d)) ∧
    (∀ code ds, (∀ r ∈ options.repos, (r.splitOn "/").length = 2) →
      collector_main options prApi issueApi orgApi file today fuel =
        some (code, ds) →
      ¬(options.repos = [] ∧ options.orgs = []) →
      code = 0) := by
  refine ⟨?_, ?_, ?_⟩
  · intro h1 h2
    simp [collector_main, h1, h2]
  · intro d hbad hload
    have hne : ¬(options.repos = [] ∧ options.orgs = []) := by
      intro hand
      obtain ⟨r, hr, _⟩ := hbad
      rw [hand.1] at hr
      simp at hr
    simp only [collector_main, if_neg hne, hload]
    rw [repos_to_org_repos_error options.repos [] hbad]
  · intro code ds hgood hmain hne
    obtain ⟨d2, hok⟩ := repos_to_org_repos_ok options.repos [] hgood
    simp only [collector_main, if_neg hne] at hmain
    cases hload : load_existing_data file today with
    | none => rw [hload] at hmain; exact absurd hmain (by simp)
    | some d1 =>
      simp only [hload] at hmain
      simp only [hok] at hmain
      cases hexp : expand_orgs orgApi fuel d2 options.orgs with
      | none => simp only [hexp] at hmain; exact absurd hmain (by simp)
      | some org_repos =>
        simp only [hexp] at hmain
        cases hproc : process_org_repos prApi issueApi today fuel d1 org_repos with
        | none => simp only [hproc] at hmain; exact absurd hmain (by simp)
        | some final =>
          simp only [hproc, Option.some.injEq, Prod.mk.injEq] at hmain
          exact hmain.1.symm

/-- Witness for C8: no targets given, exit code 1. -/
theorem c8_exit_codes_witness :
    collector_main ⟨[], []⟩ emptyPrApi emptyIssueApi emptyOrgApi none
      ⟨2024, 2, 3⟩ 1 = some (1, none) :=
  (c8_exit_codes ⟨[], []⟩ emptyPrApi emptyIssueApi emptyOrgApi none
    ⟨2024, 2, 3⟩ 1).1 rfl rfl

/-- C9: on a dataset whose single author `alice` has
`prs_by_month = {2023-01: 2, 2023-02: 1}` and all other counters empty, the
renderer invoked with `--since 2023-01` computes exactly the two per-month
totals (2023-01, 2) and (2023-02, 1) for `alice` (both as her plotted series
and as the overall totals), and — second conjunct — the five activity kinds
are summed with equal weight 1: a dataset with one of each kind in 2023-03
totals 5 for that month. -/
theorem c9_alice_two_points :
    (renderer_series ⟨[], false, ⟨2023, 1, 1⟩⟩
        [("alice", ⟨[("2023-01", 2), ("2023-02", 1)], [], [], [], []⟩)] =
      some ([("alice", [("2023-01", 2), ("2023-02", 1)])],
        [("2023-01", 2), ("2023-02", 1)])) ∧
    (renderer_series ⟨[], false, ⟨2023, 1, 1⟩⟩
        [("alice", ⟨[("2023-03", 1)], [("2023-03", 1)], [("2023-03", 1)],
          [("2023-03", 1)], [("2023-03", 1)]⟩)] =
      some ([("alice", [("2023-03", 5)])], [("2023-03", 5)])) := by
  constructor
  · decide
  · decide

theorem renderer_loop_labels (options : GraphOptions)
    (hanon : options.anonymize = true) :
    ∀ (l : List (String × AuthorCounts)) (n : Nat)
      (acc : List (String × List (String × Int))) (overall : List (String × Int))
      (series : List (String × List (String × Int)))
      (overall1 : List (String × Int)),
      renderer_loop options n acc overall l = some (series, overall1) →
      series.map Prod.fst =
        acc.map Prod.fst ++ labelsFrom n (l.filter (passesFilter options)).length := by
  intro l
  induction l with
  | nil =>
    intro n acc overall series overall1 h
    simp only [renderer_loop, Option.some.injEq, Prod.mk.injEq] at h
    rw [← h.1]
    simp [labelsFrom]
  | cons p rest ih =>
    intro n acc overall series overall1 h
    by_cases hp : options.authors ≠ [] ∧ p.1 ∉ options.authors
    · have hfilter : (p :: rest).filter (passesFilter options) =
          rest.filter (passesFilter options) := by
        simp [List.filter, passesFilter, hp]
      rw [hfilter]
      simp only [renderer_loop, if_pos hp] at h
      exact ih n acc overall series overall1 h
    · have hfilter : (p :: rest).filter (passesFilter options) =
          p :: rest.filter (passesFilter options) := by
        simp [List.filter, passesFilter, hp]
      rw [hfilter]
      simp only [renderer_loop, if_neg hp] at h
      cases ht : author_totals options.since overall p.2 with
      | none => rw [ht] at h; exact absurd h (by simp)
      | some s =>
        rw [ht] at h
        simp only [hanon, if_true] at h
        have hih := ih (n + 1)
          (acc ++ [("Developer " ++ toString n, s.1)]) s.2 series overall1 h
        rw [hih]
        simp [labelsFrom, List.append_assoc]

/-- C10: with `--anonymize` and an `--authors` filter, the `Developer N`
labels are numbered consecutively starting at 1 over exactly the authors
that pass the filter, in dataset-iteration order; an author skipped by the
filter does not consume a number. -/
theorem c10_anonymize_numbering (options : GraphOptions)
    (author_contrib : List (String × AuthorCounts))
    (series : List (String × List (String × Int)))
    (overall : List (String × Int))
    (hanon : options.anonymize = true)
    (h : renderer_series options author_contrib = some (series, overall)) :
    series.map Prod.fst =
      labelsFrom 1 (author_contrib.filter (passesFilter options)).length := by
  have hh : renderer_loop options 1 [] [] author_contrib = some (series, overall) := h
  have := renderer_loop_labels options hanon author_contrib 1 [] [] series overall hh
  simpa using this

/-- Witness for C10: three authors, the middle one filtered out; the labels
are `Developer 1` and `Developer 2`. -/
theorem c10_anonymize_numbering_witness :
    ([("Developer 1", ([] : List (String × Int))), ("Developer 2", [])].map
        Prod.fst) =
      labelsFrom 1
        (([("alice", (⟨[], [], [], [], []⟩ : AuthorCounts)),
           ("bob", ⟨[], [], [], [], []⟩), ("carly", ⟨[], [], [], [], []⟩)].filter
          (passesFilter ⟨["alice", "carly"], true, ⟨2023, 1, 1⟩⟩)).length) :=
  c10_anonymize_numbering ⟨["alice", "carly"], true, ⟨2023, 1, 1⟩⟩
    [("alice", ⟨[], [], [], [], []⟩), ("bob", ⟨[], [], [], [], []⟩),
     ("carly", ⟨[], [], [], [], []⟩)]
    [("Developer 1", []), ("Developer 2", [])] [] rfl (by decide)

theorem dictAdd_keys {κ : Type} [DecidableEq κ] (d : List (κ × Int)) (k : κ)
    (v : Int) (d' : List (κ × Int)) (h : dictAdd d k v = some d') :
    d'.map Prod.fst = d.map Prod.fst := by
  unfold dictAdd at h
  by_cases ha : (d.any (fun p => p.1 == k)) = true
  · rw [if_pos ha] at h
    injection h with h
    rw [← h]
    apply keys_map_fst_preserved
    intro p
    by_cases hc : p.1 = k <;> simp [hc]
  · rw [if_neg ha] at h
    exact absurd h (by simp)

theorem dictGet?_dictAdd_self {κ : Type} [DecidableEq κ] (d : List (κ × Int))
    (k : κ) (v : Int) (d' : List (κ × Int)) (h : dictAdd d k v = some d') :
    dictGet? d' k = (dictGet? d k).map (fun x => x + v) := by
  unfold dictAdd at h
  by_cases ha : (d.any (fun p => p.1 == k)) = true
  · rw [if_pos ha] at h
    injection h with h
    rw [← h]
    exact dictGet?_dictModify_self d k (fun x => x + v)
  · rw [if_neg ha] at h
    exact absurd h (by simp)

theorem dictGet?_dictAdd_ne {κ : Type} [DecidableEq κ] (d : List (κ × Int))
    (k k' : κ) (v : Int) (d' : List (κ × Int)) (h : dictAdd d k v = some d')
    (hne : k' ≠ k) : dictGet? d' k' = dictGet? d k' := by
  unfold dictAdd at h
  by_cases ha : (d.any (fun p => p.1 == k)) = true
  · rw [if_pos ha] at h
    injection h with h
    rw [← h]
    exact dictGet?_dictModify_ne d k k' (fun x => x + v) hne
  · rw [if_neg ha] at h
    exact absurd h (by simp)

theorem loadCounterFrom_spec (today : PyDate) :
    ∀ (l : List (String × Int)) (acc : List (String × Int)),
      (l.map Prod.fst).Nodup →
      (∀ p ∈ l, canonicalKey today p.1 = true) →
      (∀ p ∈ l, p.1 ∈ acc.map Prod.fst) →
      ∃ d, loadCounterFrom acc l = some d ∧
        d.map Prod.fst = acc.map Prod.fst ∧
        (∀ p ∈ l, dictGet? d p.1 = (dictGet? acc p.1).map (fun x => x + p.2)) ∧
        (∀ k, (∀ p ∈ l, p.1 ≠ k) → dictGet? d k = dictGet? acc k) := by
  intro l
  induction l with
  | nil =>
    intro acc _ _ _
    exact ⟨acc, rfl, rfl, by simp, fun k _ => rfl⟩
  | cons p rest ih =>
    intro acc hnd hcanon hpres
    have hnd' : (p.1 :: rest.map Prod.fst).Nodup := by simpa using hnd
    have hnd2 := List.nodup_cons.mp hnd'
    have hck := hcanon p (List.mem_cons_self p rest)
    cases hpm : parseMonth p.1 with
    | none => simp [canonicalKey, hpm] at hck
    | some ym =>
      have hck2 : inWindow today ym.1 ym.2 = true ∧ month_key ym.1 ym.2 = p.1 := by
        simpa [canonicalKey, hpm] using hck
      have hmem : p.1 ∈ acc.map Prod.fst := hpres p (List.mem_cons_self p rest)
      have hany : (acc.any (fun q => q.1 == p.1)) = true :=
        (any_key_iff acc p.1).mpr hmem
      have haddSome : ∃ acc1, dictAdd acc (month_key ym.1 ym.2) p.2 = some acc1 := by
        rw [hck2.2]
        unfold dictAdd
        rw [if_pos hany]
        exact ⟨_, rfl⟩
      obtain ⟨acc1, hadd⟩ := haddSome
      have hadd' : dictAdd acc p.1 p.2 = some acc1 := by
        rw [← hck2.2]
        exact hadd
      have hstep : loadCounterFrom acc (p :: rest) = loadCounterFrom acc1 rest := by
        simp only [loadCounterFrom, hpm, hadd]
      have hkeys1 : acc1.map Prod.fst = acc.map Prod.fst :=
        dictAdd_keys acc p.1 p.2 acc1 hadd'
      have hget1self : dictGet? acc1 p.1 =
          (dictGet? acc p.1).map (fun x => x + p.2) :=
        dictGet?_dictAdd_self acc p.1 p.2 acc1 hadd'
      have hget1ne : ∀ k, k ≠ p.1 → dictGet? acc1 k = dictGet? acc k :=
        fun k hk => dictGet?_dictAdd_ne acc p.1 k p.2 acc1 hadd' hk
      obtain ⟨d, hld, hkeysd, hgetd, hotherd⟩ := ih acc1 hnd2.2
        (fun q hq => hcanon q (List.mem_cons_of_mem p hq))
        (fun q hq => by rw [hkeys1]; exact hpres q (List.mem_cons_of_mem p hq))
      refine ⟨d, by rw [hstep]; exact hld, by rw [hkeysd, hkeys1], ?_, ?_⟩
      · intro q hq
        rcases List.mem_cons.mp hq with he | hr
        · subst he
          have hq1 : dictGet? d q.1 = dictGet? acc1 q.1 := by
            apply hotherd
            intro r hr2 heq
            exact hnd2.1 (heq ▸ List.mem_map_of_mem Prod.fst hr2)
          rw [hq1, hget1self]
        · have hne : q.1 ≠ p.1 := fun he =>
            hnd2.1 (he ▸ List.mem_map_of_mem Prod.fst hr)
          rw [hgetd q hr, hget1ne q.1 hne]
      · intro k hk
        rw [hotherd k (fun q hq => hk q (List.mem_cons_of_mem p hq)),
          hget1ne k (fun he => (hk p (List.mem_cons_self p rest)) he.symm)]

theorem loadCounter_init_spec (today : PyDate) (l : List (String × Int))
    (hnd : (l.map Prod.fst).Nodup)
    (hcanon : ∀ p ∈ l, canonicalKey today p.1 = true) :
    ∃ d, loadCounterFrom (counterInit today) l = some d ∧
      ∀ p ∈ l, dictGet? d p.1 = some p.2 := by
  have hpres : ∀ p ∈ l, p.1 ∈ (counterInit today).map Prod.fst := by
    intro p hp
    have hck := hcanon p hp
    cases hpm : parseMonth p.1 with
    | none => simp [canonicalKey, hpm] at hck
    | some ym =>
      have hck2 : inWindow today ym.1 ym.2 = true ∧ month_key ym.1 ym.2 = p.1 := by
        simpa [canonicalKey, hpm] using hck
      rw [← hck2.2]
      exact counterInit_mem today ym.1 ym.2 hck2.1
  obtain ⟨d, hld, _, hget, _⟩ :=
    loadCounterFrom_spec today l (counterInit today) hnd hcanon hpres
  refine ⟨d, hld, ?_⟩
  intro p hp
  rw [hget p hp]
  have h0 : dictGet? (counterInit today) p.1 = some 0 := by
    have hck := hcanon p hp
    cases hpm : parseMonth p.1 with
    | none => simp [canonicalKey, hpm] at hck
    | some ym =>
      have hck2 : inWindow today ym.1 ym.2 = true ∧ month_key ym.1 ym.2 = p.1 := by
        simpa [canonicalKey, hpm] using hck
      rw [← hck2.2]
      exact counterInit_get today ym.1 ym.2 hck2.1
  rw [h0]
  simp

theorem load_author_spec (today : PyDate) (values : AuthorCounts)
    (h1 : counterWF today values.prs_by_month = true)
    (h2 : counterWF today values.reviews_by_month = true)
    (h3 : counterWF today values.pr_comments_by_month = true)
    (h4 : counterWF today values.issues_by_month = true)
    (h5 : counterWF today values.issue_comments_by_month = true) :
    ∃ c, load_author today values = some c ∧
      (∀ p ∈ values.prs_by_month, dictGet? c.prs_by_month p.1 = some p.2) ∧
      (∀ p ∈ values.reviews_by_month, dictGet? c.reviews_by_month p.1 = some p.2) ∧
      (∀ p ∈ values.pr_comments_by_month,
        dictGet? c.pr_comments_by_month p.1 = some p.2) ∧
      (∀ p ∈ values.issues_by_month, dictGet? c.issues_by_month p.1 = some p.2) ∧
      (∀ p ∈ values.issue_comments_by_month,
        dictGet? c.issue_comments_by_month p.1 = some p.2) := by
  have hwf : ∀ (L : List (String × Int)), counterWF today L = true →
      (L.map Prod.fst).Nodup ∧ ∀ p ∈ L, canonicalKey today p.1 = true := by
    intro L hL
    simpa [counterWF, List.all_eq_true] using hL
  obtain ⟨d1, hd1, g1⟩ := loadCounter_init_spec today values.prs_by_month
    (hwf _ h1).1 (hwf _ h1).2
  obtain ⟨d2, hd2, g2⟩ := loadCounter_init_spec today values.reviews_by_month
    (hwf _ h2).1 (hwf _ h2).2
  obtain ⟨d3, hd3, g3⟩ := loadCounter_init_spec today values.pr_comments_by_month
    (hwf _ h3).1 (hwf _ h3).2
  obtain ⟨d4, hd4, g4⟩ := loadCounter_init_spec today values.issues_by_month
    (hwf _ h4).1 (hwf _ h4).2
  obtain ⟨d5, hd5, g5⟩ := loadCounter_init_spec today values.issue_comments_by_month
    (hwf _ h5).1 (hwf _ h5).2
  refine ⟨⟨d1, d2, d3, d4, d5⟩, ?_, g1, g2, g3, g4, g5⟩
  simp only [load_author, hd1, hd2, hd3, hd4, hd5]

theorem load_contrib_spec (today : PyDate) :
    ∀ (l : List (String × AuthorCounts)) (acc : List (String × AuthorCounts)),
      (l.map Prod.fst).Nodup →
      (∀ q ∈ l, ∃ c, load_author today q.2 = some c) →
      ∃ r, load_contrib today acc l = some r ∧
        (∀ q ∈ l, ∃ c, load_author today q.2 = some c ∧
          dictGet? r q.1 = some c) ∧
        (∀ k, (∀ q ∈ l, q.1 ≠ k) → dictGet? r k = dictGet? acc k) := by
  intro l
  induction l with
  | nil => intro acc _ _; exact ⟨acc, rfl, by simp, fun k _ => rfl⟩
  | cons q rest ih =>
    intro acc hnd hload
    have hnd' : (q.1 :: rest.map Prod.fst).Nodup := by simpa using hnd
    have hnd2 := List.nodup_cons.mp hnd'
    obtain ⟨c, hc⟩ := hload q (List.mem_cons_self q rest)
    have hstep : load_contrib today acc (q :: rest) =
        load_contrib today (dictSet acc q.1 c) rest := by
      simp only [load_contrib, hc]
    obtain ⟨r, hr, hentries, hother⟩ := ih (dictSet acc q.1 c) hnd2.2
      (fun x hx => hload x (List.mem_cons_of_mem q hx))
    refine ⟨r, by rw [hstep]; exact hr, ?_, ?_⟩
    · intro x hx
      rcases List.mem_cons.mp hx with he | hxr
      · subst he
        refine ⟨c, hc, ?_⟩
        have hxq : dictGet? r x.1 = dictGet? (dictSet acc x.1 c) x.1 := by
          apply hother
          intro y hy heq
          exact hnd2.1 (heq ▸ List.mem_map_of_mem Prod.fst hy)
        rw [hxq, dictGet?_dictSet_self]
      · exact hentries x hxr
    · intro k hk
      rw [hother k (fun y hy => hk y (List.mem_cons_of_mem q hy)),
        dictGet?_dictSet_ne acc q.1 k c
          (fun he => (hk q (List.mem_cons_self q rest)) he.symm)]

theorem mem_pySet (l : List String) (x : String) : x ∈ pySet l ↔ x ∈ l := by
  have key : ∀ (l acc : List String),
      (x ∈ l.foldl (fun a y => if y ∈ a then a else a ++ [y]) acc ↔
        x ∈ acc ∨ x ∈ l) := by
    intro l
    induction l with
    | nil => intro acc; simp
    | cons y rest ih =>
      intro acc
      rw [List.foldl_cons]
      by_cases hy : y ∈ acc
      · rw [if_pos hy, ih]
        constructor
        · rintro (h | h)
          · exact Or.inl h
          · exact Or.inr (List.mem_cons_of_mem y h)
        · rintro (h | h)
          · exact Or.inl h
          · rcases List.mem_cons.mp h with he | hr
            · exact Or.inl (he ▸ hy)
            · exact Or.inr hr
      · rw [if_neg hy, ih]
        simp only [List.mem_append, List.mem_cons, List.mem_singleton]
        tauto
  unfold pySet
  rw [key l []]
  simp

/-- C7: loading a well-formed persisted dataset file with
`load_existing_data` and immediately re-persisting it with `write_out_data`
(no new activity added) produces a file with the same content: the same
`last_updated`, the same `repos_visited` set, and — for every author and
every month key of every counter present in the original — the same count.
The re-persisted counters may carry additional zero-valued window months,
which the membership-wise statement permits.  Well-formedness (unique
canonically rendered in-window month keys, unique authors) is exactly the
shape of files the collector itself persists. -/
theorem c7_load_write_roundtrip (today : PyDate) (f : OutputData)
    (hnd : (f.author_contrib.map Prod.fst).Nodup)
    (hwf : ∀ q ∈ f.author_contrib,
      counterWF today q.2.prs_by_month = true ∧
      counterWF today q.2.reviews_by_month = true ∧
      counterWF today q.2.pr_comments_by_month = true ∧
      counterWF today q.2.issues_by_month = true ∧
      counterWF today q.2.issue_comments_by_month = true) :
    ∃ d, load_existing_data (some f) today = some d ∧
      (write_out_data d).last_updated = f.last_updated ∧
      (∀ r, r ∈ (write_out_data d).repos_visited ↔ r ∈ f.repos_visited) ∧
      (∀ q ∈ f.author_contrib, ∃ c,
        dictGet? (write_out_data d).author_contrib q.1 = some c ∧
        (∀ p ∈ q.2.prs_by_month, dictGet? c.prs_by_month p.1 = some p.2) ∧
        (∀ p ∈ q.2.reviews_by_month, dictGet? c.reviews_by_month p.1 = some p.2) ∧
        (∀ p ∈ q.2.pr_comments_by_month,
          dictGet? c.pr_comments_by_month p.1 = some p.2) ∧
        (∀ p ∈ q.2.issues_by_month, dictGet? c.issues_by_month p.1 = some p.2) ∧
        (∀ p ∈ q.2.issue_comments_by_month,
          dictGet? c.issue_comments_by_month p.1 = some p.2)) := by
  have hsucc : ∀ q ∈ f.author_contrib, ∃ c, load_author today q.2 = some c := by
    intro q hq
    obtain ⟨h1, h2, h3, h4, h5⟩ := hwf q hq
    obtain ⟨c, hc, _⟩ := load_author_spec today q.2 h1 h2 h3 h4 h5
    exact ⟨c, hc⟩
  obtain ⟨contrib, hlc, hentries, _⟩ :=
    load_contrib_spec today f.author_contrib [] hnd hsucc
  refine ⟨⟨f.last_updated, pySet f.repos_visited, contrib⟩, ?_, rfl, ?_, ?_⟩
  · simp only [load_existing_data, hlc]
  · intro r
    exact mem_pySet f.repos_visited r
  · intro q hq
    obtain ⟨c, hla, hget⟩ := hentries q hq
    obtain ⟨h1, h2, h3, h4, h5⟩ := hwf q hq
    obtain ⟨c2, hla2, g1, g2, g3, g4, g5⟩ :=
      load_author_spec today q.2 h1 h2 h3 h4 h5
    rw [hla] at hla2
    injection hla2 with he
    subst he
    exact ⟨c, hget, g1, g2, g3, g4, g5⟩

/-- Witness for C7 at a concrete persisted file: one visited repository and
one author `alice` with `prs_by_month = {2023-05: 3}`, reloaded on
2024-02-03. -/
theorem c7_load_write_roundtrip_witness :
    (([("alice", (⟨[("2023-05", 3)], [], [], [], []⟩ : AuthorCounts))].map
        Prod.fst).Nodup) ∧
    (∃ d, load_existing_data
        (some ⟨"2024-01-02", ["x/y"],
          [("alice", ⟨[("2023-05", 3)], [], [], [], []⟩)]⟩) ⟨2024, 2, 3⟩ =
          some d ∧
      (write_out_data d).last_updated = "2024-01-02" ∧
      (∀ r, r ∈ (write_out_data d).repos_visited ↔ r ∈ ["x/y"]) ∧
      (∀ q ∈ [("alice", (⟨[("2023-05", 3)], [], [], [], []⟩ : AuthorCounts))],
        ∃ c, dictGet? (write_out_data d).author_contrib q.1 = some c ∧
        (∀ p ∈ q.2.prs_by_month, dictGet? c.prs_by_month p.1 = some p.2) ∧
        (∀ p ∈ q.2.reviews_by_month, dictGet? c.reviews_by_month p.1 = some p.2) ∧
        (∀ p ∈ q.2.pr_comments_by_month,
          dictGet? c.pr_comments_by_month p.1 = some p.2) ∧
        (∀ p ∈ q.2.issues_by_month, dictGet? c.issues_by_month p.1 = some p.2) ∧
        (∀ p ∈ q.2.issue_comments_by_month,
          dictGet? c.issue_comments_by_month p.1 = some p.2))) :=
  ⟨by decide,
    c7_load_write_roundtrip ⟨2024, 2, 3⟩
      ⟨"2024-01-02", ["x/y"], [("alice", ⟨[("2023-05", 3)], [], [], [], []⟩)]⟩
      (by decide) (by decide)⟩
